import Mathlib

/-
Verification of the checksum-collection tool (collect_checksums.py).

The embedding models paths as lists of characters, the filesystem as an
inductive tree of files and directories, file reads as a list of chunk
results (a chunk is a list of byte values; a failed read is an error), the
hash library as an abstract streaming interface, and the output ledger as a
list of CSV lines.  Every function below is translated from the source:
hashlib_md5, is_hidden_file, is_system_file, has_hidden_attribute,
should_ignore_file, custom_should_ignore_file, process_path and main
(runMain here).  The os.walk loop of process_path is split into three
structurally recursive passes over one directory level, exactly mirroring
the source: checkDirs evaluates the ignore predicate on every subdirectory
(the in-place dirs filter), processFiles digests the non-ignored files of
the level, and walkKept descends into the kept subdirectories in order.
walkKept re-evaluates the ignore predicate on each directory when
descending; since the predicate is a pure function this yields the same
keep decisions that checkDirs computed, so the composition walk equals the
source loop.
-/

set_option autoImplicit false

/-- Runtime failures that the source can raise: a read failure on a file
(IOError), the ZeroDivisionError latent in the progress computation, and a
failure of the Windows attribute API call. -/
inductive Err where
  | ioError
  | zeroDiv
  | apiError
  deriving DecidableEq

/-- Operating systems distinguished by platform.system() in the source. -/
inductive Plat where
  | windows
  | darwin
  | linux
  | other
  deriving DecidableEq

/-- Ambient platform state: which OS the tool runs on, and the Windows
attribute API when importable (none models the ImportError branch).  The
API itself is a fallible lookup from a path to an attribute bitmask. -/
structure Env where
  plat : Plat
  win32 : Option (List Char → Except Err Nat)

/-- A path is modelled as its list of characters. -/
abbrev PathStr := List Char

/-- One ledger row: filename and checksum, as written by csv.DictWriter. -/
abbrev Row := PathStr × PathStr

/-- Final path component: the characters after the last slash, as
os.path.basename computes it for POSIX paths. -/
def basename (p : PathStr) : PathStr :=
  (p.reverse.takeWhile (fun c => c != '/')).reverse

/-- Lower-casing of a path, modelling the str.lower calls. -/
def lowerStr (p : PathStr) : PathStr :=
  p.map Char.toLower

/-- Whether the name begins with a dot, modelling startswith applied to a
dot. -/
def startsWithDot : PathStr → Bool
  | '.' :: _ => true
  | _ => false

/-- Substring containment, modelling the Python membership test on
strings: the pattern occurs contiguously somewhere in the text. -/
def hasSub (pat : PathStr) : PathStr → Bool
  | [] => pat.isEmpty
  | c :: rest => pat.isPrefixOf (c :: rest) || hasSub pat rest

/-- os.path.join for a relative name: root, a slash, then the name. -/
def joinPath (root name : PathStr) : PathStr :=
  root ++ '/' :: name

/-- Abstract streaming hash interface standing for the hashlib object:
an initial state, a per-chunk update, and a final hex rendering. -/
structure HashAlg (σ : Type) where
  init : σ
  update : σ → List Nat → σ
  hexdigest : σ → List Char

/-- Read loop of hashlib_md5.  The reads list holds the successive results
of file_object.read: a chunk of bytes, or an error for a read that raises.
The loop stops at an empty chunk, accumulates the running state and the
byte count, and after a nonempty chunk computes the progress percentage,
which raises ZeroDivisionError when the size sampled by os.path.getsize
was zero. -/
def md5_loop {σ : Type} (alg : HashAlg σ) (total : Nat) :
    σ → Nat → List (Except Err (List Nat)) → Except Err (σ × Nat)
  | st, n, [] => .ok (st, n)
  | _, _, .error e :: _ => .error e
  | st, n, .ok buf :: rest =>
    if buf.isEmpty then .ok (st, n)
    else
      let st2 := alg.update st buf
      let n2 := n + buf.length
      if total = 0 then .error .zeroDiv
      else md5_loop alg total st2 n2 rest

/-- hashlib_md5 from the source: run the read loop from the initial hash
state and render the final state in hex, also exposing the internal
read_size counter. -/
def hashlib_md5 {σ : Type} (alg : HashAlg σ) (total : Nat)
    (reads : List (Except Err (List Nat))) : Except Err (List Char × Nat) :=
  match md5_loop alg total alg.init 0 reads with
  | .error e => .error e
  | .ok (st, n) => .ok (alg.hexdigest st, n)

/-- has_hidden_attribute from the source: on Windows with the win32 API
importable, query the attribute mask and test the hidden bit (value 2);
an error of the API call propagates since only ImportError is caught.
Without the API, and on every other platform, the answer is false. -/
def has_hidden_attribute (env : Env) (p : PathStr) : Except Err Bool :=
  match env.plat with
  | .windows =>
    match env.win32 with
    | some attrs =>
      match attrs p with
      | .error e => .error e
      | .ok a => .ok (a &&& 2 != 0)
    | none => .ok false
  | _ => .ok false

/-- is_hidden_file from the source: the basename starts with a dot, or the
Windows hidden attribute is set; the disjunction short-circuits, so the
attribute API is only consulted when the name does not start with a dot. -/
def is_hidden_file (env : Env) (p : PathStr) : Except Err Bool :=
  if startsWithDot (basename p) then .ok true
  else has_hidden_attribute env p

/-- Windows fallback denylist from the source, matched as substrings of
the lowered basename. -/
def winPatterns : List PathStr :=
  ["thumbs.db".toList, "desktop.ini".toList, "$recycle.bin".toList,
   "system volume information".toList, "pagefile.sys".toList,
   "hiberfil.sys".toList, "swapfile.sys".toList]

/-- macOS denylist from the source, matched by equality with the lowered
basename. -/
def macPatterns : List PathStr :=
  [".ds_store".toList, ".localized".toList, ".spotlight-v100".toList,
   ".trashes".toList, ".fseventsd".toList]

/-- Linux denylist from the source, matched as substrings of the whole
lowered path. -/
def linuxPatterns : List PathStr :=
  ["/proc/".toList, "/sys/".toList, "/dev/".toList, "/run/".toList,
   "/tmp/".toList, "lost+found".toList, ".gvfs".toList]

/-- is_system_file from the source.  Windows with the win32 API tests the
system bit (value 4), and an API error propagates; Windows without the API
tests the fallback patterns as substrings of the lowered basename; macOS
compares the lowered basename for equality against its denylist; Linux
tests its patterns as substrings of the whole lowered path; any other
platform answers false. -/
def is_system_file (env : Env) (p : PathStr) : Except Err Bool :=
  match env.plat with
  | .windows =>
    match env.win32 with
    | some attrs =>
      match attrs p with
      | .error e => .error e
      | .ok a => .ok (a &&& 4 != 0)
    | none =>
      .ok (winPatterns.any (fun pat => hasSub pat (lowerStr (basename p))))
  | .darwin =>
    .ok (macPatterns.any (fun pat => pat == lowerStr (basename p)))
  | .linux =>
    .ok (linuxPatterns.any (fun pat => hasSub pat (lowerStr p)))
  | .other => .ok false

/-- Module-level should_ignore_file from the source: hidden or system,
with a short-circuiting disjunction. -/
def should_ignore_file (env : Env) (p : PathStr) : Except Err Bool :=
  match is_hidden_file env p with
  | .error e => .error e
  | .ok true => .ok true
  | .ok false => is_system_file env p

/-- custom_should_ignore_file from main: both classifications are computed
first (hidden then system, so an error of either propagates in that
order), then the entry is ignored when it is hidden and hidden files are
not included, or system and system files are not included. -/
def custom_should_ignore_file (env : Env)
    (includeHidden includeSystem : Bool) (p : PathStr) : Except Err Bool :=
  match is_hidden_file env p with
  | .error e => .error e
  | .ok h =>
    match is_system_file env p with
    | .error e => .error e
    | .ok s =>
      if h && !includeHidden then .ok true
      else if s && !includeSystem then .ok true
      else .ok false

mutual
/-- A filesystem node: a regular file carrying the size that
os.path.getsize reports and its sequence of read results, or a directory
with its entries. -/
inductive FsNode where
  | file (size : Nat) (reads : List (Except Err (List Nat)))
  | dir (entries : FsEntries)

/-- Entries of a directory, each a name paired with a node, in listing
order. -/
inductive FsEntries where
  | nil
  | cons (name : PathStr) (node : FsNode) (rest : FsEntries)
end

/-- Names of the immediate entries of a directory. -/
def entryNames : FsEntries → List PathStr
  | .nil => []
  | .cons n _ rest => n :: entryNames rest

/-- Outcome of a traversal piece: the rows written so far, and the
exception, if any, that aborted it.  Sequencing keeps the first outcome
on failure and concatenates the rows otherwise. -/
abbrev PRes := List Row × Option Err

/-- Sequential composition of two traversal outcomes: the rows of the
first, then on success the rows and verdict of the second. -/
def pseq (a b : PRes) : PRes :=
  match a with
  | (rows, none) => (rows ++ b.1, b.2)
  | (rows, some e) => (rows, some e)

/-- The in-place dirs filter of the os.walk loop: evaluate the ignore
predicate on the joined path of every subdirectory of the level, in order,
collecting the verdicts; an error of the predicate aborts the run. -/
def checkDirs (ig : PathStr → Except Err Bool) (root : PathStr) :
    FsEntries → Except Err (List Bool)
  | .nil => .ok []
  | .cons n (.dir _) rest =>
    match ig (joinPath root n) with
    | .error e => .error e
    | .ok b =>
      match checkDirs ig root rest with
      | .error e => .error e
      | .ok bs => .ok (b :: bs)
  | .cons _ (.file _ _) rest => checkDirs ig root rest

/-- The files loop of one os.walk level: each file of the level is
checked against the ignore predicate and, when kept, digested and written
as a row; an error of the predicate or of the digest aborts the run with
the rows written so far. -/
def processFiles {σ : Type} (ig : PathStr → Except Err Bool)
    (alg : HashAlg σ) (root : PathStr) : FsEntries → PRes
  | .nil => ([], none)
  | .cons _ (.dir _) rest => processFiles ig alg root rest
  | .cons n (.file sz reads) rest =>
    match ig (joinPath root n) with
    | .error e => ([], some e)
    | .ok true => processFiles ig alg root rest
    | .ok false =>
      match hashlib_md5 alg sz reads with
      | .error e => ([], some e)
      | .ok (hex, _) =>
        pseq ([(joinPath root n, hex)], none) (processFiles ig alg root rest)

/-- Descent into the kept subdirectories of one os.walk level, in order.
For each directory entry the ignore predicate decides descent (recomputing
the pure verdict that checkDirs collected); descending runs the next
level: its dirs filter, its files loop, and its own descent. -/
def walkKept {σ : Type} (ig : PathStr → Except Err Bool) (alg : HashAlg σ)
    (root : PathStr) : FsEntries → PRes
  | .nil => ([], none)
  | .cons _ (.file _ _) rest => walkKept ig alg root rest
  | .cons n (.dir sub) rest =>
    match ig (joinPath root n) with
    | .error e => ([], some e)
    | .ok true => walkKept ig alg root rest
    | .ok false =>
      pseq
        (match checkDirs ig (joinPath root n) sub with
         | .error e => ([], some e)
         | .ok _ =>
           pseq (processFiles ig alg (joinPath root n) sub)
             (walkKept ig alg (joinPath root n) sub))
        (walkKept ig alg root rest)

/-- One os.walk level, as the source runs it: filter the dirs list, run
the files loop, then descend into the kept directories. -/
def walk {σ : Type} (ig : PathStr → Except Err Bool) (alg : HashAlg σ)
    (root : PathStr) (es : FsEntries) : PRes :=
  match checkDirs ig root es with
  | .error e => ([], some e)
  | .ok _ => pseq (processFiles ig alg root es) (walkKept ig alg root es)

/-- process_path from the source.  A file root is checked against the
ignore predicate and, when kept, digested and written as one row; a
directory root is walked; a path that is neither (it does not exist)
falls through both branches and nothing happens. -/
def process_path {σ : Type} (ig : PathStr → Except Err Bool)
    (alg : HashAlg σ) (path : PathStr) (node : Option FsNode) : PRes :=
  match node with
  | some (.file sz reads) =>
    (match ig path with
     | .error e => ([], some e)
     | .ok true => ([], none)
     | .ok false =>
       match hashlib_md5 alg sz reads with
       | .error e => ([], some e)
       | .ok (hex, _) => ([(path, hex)], none))
  | some (.dir es) => walk ig alg path es
  | none => ([], none)

/-- One line of the output CSV: the header row, or a data row. -/
inductive CsvLine where
  | header
  | data (row : Row)

/-- Number of header lines in a ledger. -/
def countHeader (l : List CsvLine) : Nat :=
  l.countP (fun x => match x with | .header => true | _ => false)

/-- main from the source.  The ledger argument is the prior contents of
the output file, none when it does not exist.  main tests existence,
opens the file in append mode (creating it), writes the header only when
the file did not exist, and runs process_path with the
custom_should_ignore_file predicate built from the flags.  The result is
the final file contents together with the success of the run (false when
an exception propagated out of process_path). -/
def runMain {σ : Type} (env : Env) (includeHidden includeSystem : Bool)
    (alg : HashAlg σ) (path : PathStr) (node : Option FsNode)
    (ledger : Option (List CsvLine)) : Option (List CsvLine) × Bool :=
  let ig := custom_should_ignore_file env includeHidden includeSystem
  let contents := ledger.getD []
  let withHeader := if ledger.isSome then contents
    else contents ++ [CsvLine.header]
  let r := process_path ig alg path node
  (some (withHeader ++ r.1.map CsvLine.data), r.2.isNone)

/-- A concrete hash instance used to instantiate witnesses: the state
counts bytes and the rendering writes the count in decimal. -/
def demoAlg : HashAlg Nat :=
  { init := 0
    update := fun s b => s + b.length
    hexdigest := fun s => Nat.toDigits 10 s }

/-- A Windows attribute API whose every call fails, modelling a lookup
the platform rejects (for example on a path that cannot be queried). -/
def badApi : PathStr → Except Err Nat :=
  fun _ => .error .apiError

/-- Header lines contributed by data rows: none. -/
theorem countHeader_data_map (rows : List Row) :
    countHeader (rows.map CsvLine.data) = 0 := by
  induction rows with
  | nil => rfl
  | cons r rs ih =>
    simp only [countHeader, List.countP_cons, List.map_cons] at ih ⊢
    simp [ih]

/-- Claim C1 (counterexample): with a root path that does not exist and no
prior ledger, the run exits successfully (exit code zero) and the ledger
is created with a header row, contradicting the claimed NotFound abort
before any ledger I/O. -/
theorem c1_counterexample :
    runMain ⟨.linux, none⟩ false false demoAlg ("missing".toList) none none =
      (some [CsvLine.header], true) := rfl

/-- Claim C1 (amended): if the root path argument does not exist,
process_path silently does nothing; the ledger is still opened first, a
header row is written when the file did not exist, no data rows are
appended, and the run exits zero. -/
theorem c1_missing_root_silent {σ : Type} (env : Env) (ih isys : Bool)
    (alg : HashAlg σ) (path : PathStr) (ledger : Option (List CsvLine)) :
    runMain env ih isys alg path none ledger =
      (some (if ledger.isSome then ledger.getD []
             else ledger.getD [] ++ [CsvLine.header]), true) := by
  simp [runMain, process_path]

/-- Claim C9: on every platform other than Windows the native hidden
attribute check is constantly false, so a path is classified hidden
exactly when its final component begins with a dot. -/
theorem c9_nonwindows_hidden (env : Env) (p : PathStr)
    (h : env.plat ≠ .windows) :
    has_hidden_attribute env p = .ok false ∧
    is_hidden_file env p = .ok (startsWithDot (basename p)) := by
  obtain ⟨pl, w⟩ := env
  have hA : has_hidden_attribute ⟨pl, w⟩ p = .ok false := by
    cases pl
    · exact absurd rfl h
    · rfl
    · rfl
    · rfl
  refine ⟨hA, ?_⟩
  unfold is_hidden_file
  cases hd : startsWithDot (basename p) <;> simp [hd, hA]

/-- Claim C9 witness: on Linux a dot file is hidden and the attribute
check answers false. -/
theorem c9_witness :
    has_hidden_attribute ⟨.linux, none⟩ (".a".toList) = .ok false ∧
    is_hidden_file ⟨.linux, none⟩ (".a".toList) = .ok true := by
  have h := c9_nonwindows_hidden ⟨.linux, none⟩ (".a".toList) (by decide)
  exact ⟨h.1, h.2⟩

/-- Claim C10: an entry that is both hidden and system is ignored unless
both include flags are passed; passing only one of the two flags still
ignores it. -/
theorem c10_both_flags_needed (env : Env) (ih isys : Bool) (p : PathStr)
    (hh : is_hidden_file env p = .ok true)
    (hs : is_system_file env p = .ok true) :
    custom_should_ignore_file env ih isys p = .ok (!(ih && isys)) := by
  unfold custom_should_ignore_file
  rw [hh, hs]
  cases ih <;> cases isys <;> rfl

/-- Claim C10 witness: on macOS the entry .ds_store is both hidden and
system, and with only include-hidden passed it is still ignored. -/
theorem c10_witness :
    custom_should_ignore_file ⟨.darwin, none⟩ true false (".ds_store".toList)
      = .ok true :=
  c10_both_flags_needed ⟨.darwin, none⟩ true false (".ds_store".toList) rfl rfl

/-- Claim C8: digesting a zero byte file succeeds, returning the digest of
the empty input with byte count zero, and the file is recorded in the
ledger like any other successful file. -/
theorem c8_empty_file {σ : Type} (alg : HashAlg σ)
    (ig : PathStr → Except Err Bool) (path : PathStr)
    (h : ig path = .ok false) :
    hashlib_md5 alg 0 [] = .ok (alg.hexdigest alg.init, 0) ∧
    process_path ig alg path (some (.file 0 [])) =
      ([(path, alg.hexdigest alg.init)], none) := by
  refine ⟨rfl, ?_⟩
  simp [process_path, h, hashlib_md5, md5_loop]

/-- Claim C8 witness: a concrete zero byte file at a non-ignored path is
digested and recorded. -/
theorem c8_witness :
    hashlib_md5 demoAlg 0 [] = .ok (Nat.toDigits 10 0, 0) ∧
    process_path (custom_should_ignore_file ⟨.linux, none⟩ false false)
      demoAlg ("a".toList) (some (.file 0 [])) =
      ([(("a".toList), Nat.toDigits 10 0)], none) :=
  c8_empty_file demoAlg
    (custom_should_ignore_file ⟨.linux, none⟩ false false) ("a".toList) rfl

/-- Claim C5 (counterexample): on Windows with the attribute API
importable, a failing attribute lookup (for example on a path that cannot
be queried) propagates out of both classifier predicates and out of the
combined ignore predicate, contradicting the claim that they never
raise. -/
theorem c5_counterexample :
    is_hidden_file ⟨.windows, some badApi⟩ ("f".toList) = .error .apiError ∧
    is_system_file ⟨.windows, some badApi⟩ ("f".toList) = .error .apiError ∧
    custom_should_ignore_file ⟨.windows, some badApi⟩ false false
      ("f".toList) = .error .apiError :=
  ⟨rfl, rfl, rfl⟩

/-- Claim C5 (amended): on every platform other than Windows, and on
Windows when the attribute API is unavailable (the ImportError branch),
the classifier predicates never raise: they always return a verdict, for
any path, including paths that do not exist; only a failing call of an
available Windows attribute API propagates as an error. -/
theorem c5_no_raise_offwindows (env : Env) (p : PathStr)
    (h : env.plat ≠ .windows ∨ env.win32 = none) :
    (∃ b, is_hidden_file env p = .ok b) ∧
    (∃ b, is_system_file env p = .ok b) ∧
    (∀ ih isys, ∃ b, custom_should_ignore_file env ih isys p = .ok b) := by
  obtain ⟨pl, w⟩ := env
  have hA : has_hidden_attribute ⟨pl, w⟩ p = .ok false := by
    cases pl
    · rcases h with h | h
      · exact absurd rfl h
      · simp only at h
        subst h
        rfl
    · rfl
    · rfl
    · rfl
  have hh : ∃ b, is_hidden_file ⟨pl, w⟩ p = .ok b := by
    unfold is_hidden_file
    cases hd : startsWithDot (basename p)
    · exact ⟨false, by simp [hd, hA]⟩
    · exact ⟨true, by simp [hd]⟩
  have hs : ∃ b, is_system_file ⟨pl, w⟩ p = .ok b := by
    cases pl
    · rcases h with h | h
      · exact absurd rfl h
      · simp only at h
        subst h
        exact ⟨_, rfl⟩
    · exact ⟨_, rfl⟩
    · exact ⟨_, rfl⟩
    · exact ⟨_, rfl⟩
  refine ⟨hh, hs, ?_⟩
  obtain ⟨b1, e1⟩ := hh
  obtain ⟨b2, e2⟩ := hs
  intro ih isys
  unfold custom_should_ignore_file
  rw [e1, e2]
  cases b1 <;> cases b2 <;> cases ih <;> cases isys <;> exact ⟨_, rfl⟩

/-- Claim C5 witness: on Linux, a path that does not exist anywhere still
gets a verdict from every predicate. -/
theorem c5_witness :
    (∃ b, is_hidden_file ⟨.linux, none⟩ ("no/such/path".toList) = .ok b) ∧
    (∃ b, is_system_file ⟨.linux, none⟩ ("no/such/path".toList) = .ok b) ∧
    (∀ ih isys, ∃ b, custom_should_ignore_file ⟨.linux, none⟩ ih isys
      ("no/such/path".toList) = .ok b) :=
  c5_no_raise_offwindows ⟨.linux, none⟩ ("no/such/path".toList)
    (Or.inl (by decide))

/-- Claim C4 (counterexample): on Linux, a path whose final component
merely contains, but does not equal, the whole-name denylist entry
lost+found is classified as a system file, contradicting the claimed
exact final-component matching for whole-name entries. -/
theorem c4_counterexample :
    is_system_file ⟨.linux, none⟩ ("xlost+foundy".toList) = .ok true ∧
    basename ("xlost+foundy".toList) = "xlost+foundy".toList ∧
    "xlost+foundy".toList ≠ "lost+found".toList ∧
    hasSub ("lost+found".toList) ("xlost+foundy".toList) = true :=
  ⟨rfl, rfl, by decide, rfl⟩

/-- Claim C4 (amended): exact final-component matching holds only on
macOS, where a path is system exactly when its lowered basename is in the
denylist.  On Linux every entry, including the whole-name entry
lost+found, is matched as a substring of the whole lowered path, and in
the Windows fallback every entry, including thumbs.db, is matched as a
substring of the lowered final component, so a final component that
merely contains a whole-name entry is classified system there. -/
theorem c4_matching_modes :
    (∀ p : PathStr, is_system_file ⟨.darwin, none⟩ p = .ok true ↔
      lowerStr (basename p) ∈ macPatterns) ∧
    (∀ p : PathStr, hasSub ("lost+found".toList) (lowerStr p) = true →
      is_system_file ⟨.linux, none⟩ p = .ok true) ∧
    (∀ p : PathStr, hasSub ("thumbs.db".toList) (lowerStr (basename p)) = true →
      is_system_file ⟨.windows, none⟩ p = .ok true) := by
  refine ⟨?_, ?_, ?_⟩
  · intro p
    simp [is_system_file, List.any_eq_true]
  · intro p hsub
    simp only [is_system_file, Except.ok.injEq, List.any_eq_true]
    exact ⟨"lost+found".toList, by simp [linuxPatterns], hsub⟩
  · intro p hsub
    simp only [is_system_file, Except.ok.injEq, List.any_eq_true]
    exact ⟨"thumbs.db".toList, by simp [winPatterns], hsub⟩

/-- Claim C4 witness: a directory entry named lost+foundx under some
parent is classified system on Linux by substring matching. -/
theorem c4_witness :
    is_system_file ⟨.linux, none⟩ ("a/lost+foundx".toList) = .ok true :=
  c4_matching_modes.2.1 ("a/lost+foundx".toList) rfl

/-- Claim C2 (counterexample): a directory with a first file whose read
fails and a second readable file.  The run does not record any skipped
entry and does not continue with the next candidate: it aborts with only
the header written and exits with failure, contradicting the claim that
the run as a whole still succeeds. -/
theorem c2_counterexample :
    runMain ⟨.other, none⟩ false false demoAlg ("r".toList)
      (some (.dir (.cons ("a".toList) (.file 1 [.error .ioError])
        (.cons ("b".toList) (.file 0 []) .nil)))) none
      = (some [CsvLine.header], false) := rfl

/-- Claim C2 (amended): when reading one candidate file fails partway
through, the error is not caught anywhere: the failing file gets no
ledger row and no skip record, the remaining candidates of the level are
never digested, the exception propagates out of the walk, and the run
exits with failure. -/
theorem c2_read_error_aborts {σ : Type} (env : Env) (ih isys : Bool)
    (alg : HashAlg σ) (root n : PathStr) (sz : Nat)
    (reads : List (Except Err (List Nat))) (rest : FsEntries) (e : Err)
    (flags : List Bool)
    (hc : checkDirs (custom_should_ignore_file env ih isys) root
      (.cons n (.file sz reads) rest) = .ok flags)
    (hig : custom_should_ignore_file env ih isys (joinPath root n) = .ok false)
    (hmd : hashlib_md5 alg sz reads = .error e) :
    walk (custom_should_ignore_file env ih isys) alg root
      (.cons n (.file sz reads) rest) = ([], some e) ∧
    (runMain env ih isys alg root
      (some (.dir (.cons n (.file sz reads) rest))) none).2 = false := by
  have hw : walk (custom_should_ignore_file env ih isys) alg root
      (.cons n (.file sz reads) rest) = ([], some e) := by
    unfold walk
    rw [hc]
    simp only [processFiles, hig, hmd]
    rfl
  refine ⟨hw, ?_⟩
  simp [runMain, process_path, hw]

/-- Claim C2 witness: the amended statement instantiated at the
counterexample filesystem. -/
theorem c2_witness :
    walk (custom_should_ignore_file ⟨.other, none⟩ false false) demoAlg
      ("r".toList) (.cons ("a".toList) (.file 1 [.error .ioError])
        (.cons ("b".toList) (.file 0 []) .nil)) = ([], some .ioError) ∧
    (runMain ⟨.other, none⟩ false false demoAlg ("r".toList)
      (some (.dir (.cons ("a".toList) (.file 1 [.error .ioError])
        (.cons ("b".toList) (.file 0 []) .nil)))) none).2 = false :=
  c2_read_error_aborts ⟨.other, none⟩ false false demoAlg ("r".toList)
    ("a".toList) 1 [.error .ioError]
    (.cons ("b".toList) (.file 0 []) .nil) .ioError [] rfl rfl rfl

/-- Claim C7: for a root that is a regular file, at most one row is
produced, any produced row names the root, an excluded root (under the
ignore predicate built from the include flags of the run) produces
nothing, and a non-excluded root whose digest succeeds produces exactly
its own row. -/
theorem c7_single_file_root {σ : Type} (env : Env) (ih isys : Bool)
    (alg : HashAlg σ) (path : PathStr) (sz : Nat)
    (reads : List (Except Err (List Nat))) :
    (process_path (custom_should_ignore_file env ih isys) alg path
      (some (.file sz reads))).1.length ≤ 1 ∧
    (∀ q ∈ (process_path (custom_should_ignore_file env ih isys) alg path
      (some (.file sz reads))).1, q.1 = path) ∧
    (custom_should_ignore_file env ih isys path = .ok true →
      (process_path (custom_should_ignore_file env ih isys) alg path
        (some (.file sz reads))).1 = []) ∧
    (∀ hex nb, custom_should_ignore_file env ih isys path = .ok false →
      hashlib_md5 alg sz reads = .ok (hex, nb) →
      (process_path (custom_should_ignore_file env ih isys) alg path
        (some (.file sz reads))).1 = [(path, hex)]) := by
  cases hig : custom_should_ignore_file env ih isys path with
  | error e =>
    refine ⟨?_, ?_, ?_, ?_⟩ <;> simp [process_path, hig]
  | ok b =>
    cases b
    · cases hmd : hashlib_md5 alg sz reads with
      | error e2 =>
        refine ⟨?_, ?_, ?_, ?_⟩ <;> simp [process_path, hig, hmd]
      | ok pr =>
        obtain ⟨hex0, nb0⟩ := pr
        refine ⟨?_, ?_, ?_, ?_⟩ <;> simp [process_path, hig, hmd]
    · refine ⟨?_, ?_, ?_, ?_⟩ <;> simp [process_path, hig]

/-- Claim C7 witness: a non-excluded file root produces exactly its own
row, and a hidden file root produces nothing. -/
theorem c7_witness :
    (process_path (custom_should_ignore_file ⟨.other, none⟩ false false)
      demoAlg ("a".toList) (some (.file 0 []))).1 =
      [(("a".toList), Nat.toDigits 10 0)] ∧
    (process_path (custom_should_ignore_file ⟨.other, none⟩ false false)
      demoAlg (".a".toList) (some (.file 0 []))).1 = [] :=
  ⟨(c7_single_file_root ⟨.other, none⟩ false false demoAlg ("a".toList) 0
      []).2.2.2 (Nat.toDigits 10 0) 0 rfl rfl,
   (c7_single_file_root ⟨.other, none⟩ false false demoAlg (".a".toList) 0
      []).2.2.1 rfl⟩

/-- Claim C3: ledger creation is header-idempotent.  A first run against
a missing output file writes the header once followed by its rows; a
second run of the same scan against the resulting file appends only its
rows, keeping every prior line unchanged and in place, and the final file
holds exactly one header followed by the data rows of both runs. -/
theorem c3_header_idempotent {σ : Type} (env : Env) (ih isys : Bool)
    (alg : HashAlg σ) (path : PathStr) (node : Option FsNode)
    (rows : List Row)
    (h : process_path (custom_should_ignore_file env ih isys) alg path node
      = (rows, none)) :
    runMain env ih isys alg path node none =
      (some (CsvLine.header :: rows.map CsvLine.data), true) ∧
    runMain env ih isys alg path node
      (some (CsvLine.header :: rows.map CsvLine.data)) =
      (some ((CsvLine.header :: rows.map CsvLine.data) ++
        rows.map CsvLine.data), true) ∧
    countHeader ((CsvLine.header :: rows.map CsvLine.data) ++
      rows.map CsvLine.data) = 1 := by
  refine ⟨?_, ?_, ?_⟩
  · simp [runMain, h]
  · simp [runMain, h]
  · simp [countHeader, List.countP_append, List.countP_cons]

/-- Claim C3 witness: two runs over one readable file starting from a
missing ledger give one header and two identical data rows. -/
theorem c3_witness :
    runMain ⟨.other, none⟩ false false demoAlg ("a".toList)
      (some (.file 0 [])) none =
      (some (CsvLine.header ::
        [(("a".toList), Nat.toDigits 10 0)].map CsvLine.data), true) ∧
    runMain ⟨.other, none⟩ false false demoAlg ("a".toList)
      (some (.file 0 []))
      (some (CsvLine.header ::
        [(("a".toList), Nat.toDigits 10 0)].map CsvLine.data)) =
      (some ((CsvLine.header ::
        [(("a".toList), Nat.toDigits 10 0)].map CsvLine.data) ++
        [(("a".toList), Nat.toDigits 10 0)].map CsvLine.data), true) ∧
    countHeader ((CsvLine.header ::
      [(("a".toList), Nat.toDigits 10 0)].map CsvLine.data) ++
      [(("a".toList), Nat.toDigits 10 0)].map CsvLine.data) = 1 :=
  c3_header_idempotent ⟨.other, none⟩ false false demoAlg ("a".toList)
    (some (.file 0 [])) [(("a".toList), Nat.toDigits 10 0)] rfl

/-- When every immediate entry of a level is ignored, the dirs filter
succeeds and marks every subdirectory as ignored. -/
theorem checkDirs_ignored (ig : PathStr → Except Err Bool) (root : PathStr) :
    ∀ (es : FsEntries),
    (∀ n ∈ entryNames es, ig (joinPath root n) = .ok true) →
    ∃ flags, checkDirs ig root es = .ok flags ∧ ∀ b ∈ flags, b = true
  | .nil, _ => ⟨[], rfl, by simp⟩
  | .cons n (.file sz rds) rest, H => by
    obtain ⟨flags, hf, hall⟩ := checkDirs_ignored ig root rest
      (fun m hm => H m (List.mem_cons_of_mem n hm))
    exact ⟨flags, hf, hall⟩
  | .cons n (.dir sub) rest, H => by
    have hig : ig (joinPath root n) = .ok true := H n (List.mem_cons_self n _)
    obtain ⟨flags, hf, hall⟩ := checkDirs_ignored ig root rest
      (fun m hm => H m (List.mem_cons_of_mem n hm))
    refine ⟨true :: flags, ?_, ?_⟩
    · simp [checkDirs, hig, hf]
    · intro b hb
      rcases List.mem_cons.mp hb with h | h
      · exact h
      · exact hall b h

/-- When every immediate entry of a level is ignored, the files loop of
the level writes nothing and raises nothing. -/
theorem processFiles_ignored {σ : Type} (ig : PathStr → Except Err Bool)
    (alg : HashAlg σ) (root : PathStr) :
    ∀ (es : FsEntries),
    (∀ n ∈ entryNames es, ig (joinPath root n) = .ok true) →
    processFiles ig alg root es = ([], none)
  | .nil, _ => rfl
  | .cons n (.dir sub) rest, H =>
    processFiles_ignored ig alg root rest
      (fun m hm => H m (List.mem_cons_of_mem n hm))
  | .cons n (.file sz rds) rest, H => by
    have hig : ig (joinPath root n) = .ok true := H n (List.mem_cons_self n _)
    simp only [processFiles, hig]
    exact processFiles_ignored ig alg root rest
      (fun m hm => H m (List.mem_cons_of_mem n hm))

/-- When every immediate entry of a level is ignored, the descent of the
level visits nothing: no subtree is entered. -/
theorem walkKept_ignored {σ : Type} (ig : PathStr → Except Err Bool)
    (alg : HashAlg σ) (root : PathStr) :
    ∀ (es : FsEntries),
    (∀ n ∈ entryNames es, ig (joinPath root n) = .ok true) →
    walkKept ig alg root es = ([], none)
  | .nil, _ => rfl
  | .cons n (.file sz rds) rest, H =>
    walkKept_ignored ig alg root rest
      (fun m hm => H m (List.mem_cons_of_mem n hm))
  | .cons n (.dir sub) rest, H => by
    have hig : ig (joinPath root n) = .ok true := H n (List.mem_cons_self n _)
    simp only [walkKept, hig]
    exact walkKept_ignored ig alg root rest
      (fun m hm => H m (List.mem_cons_of_mem n hm))

/-- Claim C6: an ignored directory prunes its entire subtree.  First, the
walk result does not depend in any way on the contents of a subdirectory
whose joined path the ignore predicate rejects: the subtree is never
visited.  Second, a root directory whose immediate entries are all
ignored produces no rows and no error, and so does process_path on it. -/
theorem c6_prune_subtree {σ : Type} (ig : PathStr → Except Err Bool)
    (alg : HashAlg σ) (root : PathStr) :
    (∀ (n : PathStr) (sub sub2 rest : FsEntries),
      ig (joinPath root n) = .ok true →
      walk ig alg root (.cons n (.dir sub) rest) =
        walk ig alg root (.cons n (.dir sub2) rest)) ∧
    (∀ es : FsEntries,
      (∀ n ∈ entryNames es, ig (joinPath root n) = .ok true) →
      walk ig alg root es = ([], none)) ∧
    (∀ es : FsEntries,
      (∀ n ∈ entryNames es, ig (joinPath root n) = .ok true) →
      process_path ig alg root (some (.dir es)) = ([], none)) := by
  have hb : ∀ es : FsEntries,
      (∀ n ∈ entryNames es, ig (joinPath root n) = .ok true) →
      walk ig alg root es = ([], none) := by
    intro es H
    obtain ⟨flags, hf, _⟩ := checkDirs_ignored ig root es H
    unfold walk
    rw [hf, processFiles_ignored ig alg root es H,
      walkKept_ignored ig alg root es H]
    rfl
  refine ⟨?_, hb, ?_⟩
  · intro n sub sub2 rest hig
    have w1 : ∀ sb : FsEntries, walkKept ig alg root (.cons n (.dir sb) rest)
        = walkKept ig alg root rest := by
      intro sb
      simp [walkKept, hig]
    cases hr : checkDirs ig root rest with
    | error e =>
      have e1 : checkDirs ig root (.cons n (.dir sub) rest) = .error e := by
        simp [checkDirs, hig, hr]
      have e2 : checkDirs ig root (.cons n (.dir sub2) rest) = .error e := by
        simp [checkDirs, hig, hr]
      simp [walk, e1, e2]
    | ok bs =>
      have e1 : checkDirs ig root (.cons n (.dir sub) rest)
          = .ok (true :: bs) := by
        simp [checkDirs, hig, hr]
      have e2 : checkDirs ig root (.cons n (.dir sub2) rest)
          = .ok (true :: bs) := by
        simp [checkDirs, hig, hr]
      simp [walk, e1, e2, w1, processFiles]
  · intro es H
    simpa [process_path] using hb es H

/-- Claim C6 witness: on macOS a dot directory prunes whatever is below
it, and a root directory holding only a hidden entry yields nothing. -/
theorem c6_witness :
    walk (custom_should_ignore_file ⟨.darwin, none⟩ false false) demoAlg
      ("r".toList) (.cons (".d".toList) (.dir .nil) .nil) =
    walk (custom_should_ignore_file ⟨.darwin, none⟩ false false) demoAlg
      ("r".toList)
      (.cons (".d".toList)
        (.dir (.cons ("x".toList) (.file 0 []) .nil)) .nil) ∧
    walk (custom_should_ignore_file ⟨.darwin, none⟩ false false) demoAlg
      ("r".toList) (.cons (".h".toList) (.file 0 []) .nil) = ([], none) :=
  ⟨(c6_prune_subtree (custom_should_ignore_file ⟨.darwin, none⟩ false false)
      demoAlg ("r".toList)).1 (".d".toList) .nil
      (.cons ("x".toList) (.file 0 []) .nil) .nil rfl,
   (c6_prune_subtree (custom_should_ignore_file ⟨.darwin, none⟩ false false)
      demoAlg ("r".toList)).2.1
      (.cons (".h".toList) (.file 0 []) .nil)
      (by
        intro m hm
        simp [entryNames] at hm
        subst hm
        rfl)⟩
